import Mathlib

/-
  Verification of the drug-discovery-analyzer repository.

  The compound table is a list of rows.  Numeric CSV cells are modelled as
  `Option ℚ` (every finite machine float is a rational number, and float
  comparisons coincide with the rational order; a pandas NaN cell is `none`,
  and a pandas comparison with NaN yields False, modelled by `Option.elim
  false`).  The pIC50 column produced by `calculate_pic50` holds values of
  the transcendental function `-log10`, so the row type is parametrised by
  the type `π` of that one column: the transform pipeline instantiates
  `π := ℝ`, while concrete witnesses use `π := ℚ`, where every filter
  computation is decidable.
-/

namespace DrugDiscovery

/-- One row of the compound table (columns of `scripts/analysis` and `app.py`).
Input columns come first, derived columns (initially absent, i.e. `none`)
follow: `lipinski_violations` and `is_drug_like` are added by
`calculate_lipinski`, `ic50_M` and `pIC50` by `calculate_pic50`. -/
structure Row (π : Type) where
  chembl_id : String := ""
  name : Option String := none
  target : String := ""
  ic50 : Option ℚ := none
  mw : Option ℚ := none
  logp : Option ℚ := none
  hbd : Option ℚ := none
  hba : Option ℚ := none
  psa : Option ℚ := none
  lipinski_violations : Option ℤ := none
  is_drug_like : Option Bool := none
  ic50_M : Option ℚ := none
  pIC50 : Option π := none
deriving DecidableEq

/-- Elementwise pandas comparison `column > c`: a missing value (NaN)
compares as False. -/
def qgt (o : Option ℚ) (c : ℚ) : Bool :=
  o.elim false fun x => decide (c < x)

/-- Row r has all of mw, logp, hbd, hba present; `calculate_lipinski`
drops (via `dropna(subset=[mw, logp, hbd, hba])`) the rows where this
fails. -/
def hasLipinskiInputs {π : Type} (r : Row π) : Bool :=
  r.mw.isSome && r.logp.isSome && r.hbd.isSome && r.hba.isSome

/-- The `violations` sum of `calculate_lipinski`
(`molecular_analysis.py` lines 26-31): four indicator conditions cast to
int and added. -/
def violationCount {π : Type} (r : Row π) : ℤ :=
  (if qgt r.mw 500 then 1 else 0) + (if qgt r.logp 5 then 1 else 0) +
    (if qgt r.hbd 5 then 1 else 0) + (if qgt r.hba 10 then 1 else 0)

/-- Row update performed by `calculate_lipinski` on each surviving row. -/
def lipinskiRow {π : Type} (r : Row π) : Row π :=
  { r with lipinski_violations := some (violationCount r),
           is_drug_like := some (decide (violationCount r = 0)) }

/-- `calculate_lipinski` (`molecular_analysis.py` lines 21-34), as the value
it returns: drop rows with a missing Lipinski input, then add the
`lipinski_violations` and `is_drug_like` columns. -/
def calculate_lipinski {π : Type} (df : List (Row π)) : List (Row π) :=
  (df.filter hasLipinskiInputs).map lipinskiRow

/-- The call effect of `calculate_lipinski`: `(returned value, state of the
argument object after the call)`.  The function mutates its argument in
place (`dropna(..., inplace=True)` plus column assignment) and returns that
same object, so both components are equal. -/
def calculate_lipinski_call {π : Type} (df : List (Row π)) :
    List (Row π) × List (Row π) :=
  (calculate_lipinski df, calculate_lipinski df)

/-- The `ic50_M` column of `calculate_pic50` (`molecular_analysis.py` lines
42-47): `ic50 * 1e-9`, with any non-positive result replaced by NaN. -/
def ic50M (o : Option ℚ) : Option ℚ :=
  match o with
  | none => none
  | some x =>
      if x * (1 / 1000000000) ≤ 0 then none else some (x * (1 / 1000000000))

/-- The `pIC50` value of a row: `-log10(ic50_M)` where `ic50_M` is the
guarded molar concentration; `log10` of NaN is NaN (line 50 of
`molecular_analysis.py`).  Idealised over ℝ: the guard guarantees the
argument of the logarithm is positive. -/
noncomputable def pic50val (o : Option ℚ) : Option ℝ :=
  match ic50M o with
  | none => none
  | some m => some (-(Real.logb 10 (m : ℝ)))

/-- State of the argument object of `calculate_pic50` after the call: the
two column assignments (lines 43 and 50) mutate it in place, so it carries
both the intermediate `ic50_M` column and the new `pIC50` column. -/
noncomputable def calculate_pic50_argAfter (df : List (Row ℝ)) : List (Row ℝ) :=
  df.map fun r => { r with ic50_M := ic50M r.ic50, pIC50 := pic50val r.ic50 }

/-- Remove the intermediate `ic50_M` column (`df.drop(columns=[ic50_M])`,
line 53, which is not in place: it produces a new table). -/
def eraseIc50M {π : Type} (r : Row π) : Row π :=
  { r with ic50_M := none }

/-- `calculate_pic50` (`molecular_analysis.py` lines 36-54), as the value it
returns: the mutated table with the intermediate `ic50_M` column dropped. -/
noncomputable def calculate_pic50 (df : List (Row ℝ)) : List (Row ℝ) :=
  (calculate_pic50_argAfter df).map eraseIc50M

/-- The call effect of `calculate_pic50`: `(returned value, state of the
argument object after the call)`.  Unlike `calculate_lipinski` the returned
table is a new object (the non-in-place `drop`), while the argument keeps
the two added columns. -/
noncomputable def calculate_pic50_call (df : List (Row ℝ)) :
    List (Row ℝ) × List (Row ℝ) :=
  (calculate_pic50 df, calculate_pic50_argAfter df)

/-- Inclusive membership of an optional cell in a closed range: pandas
`between` (inclusive on both ends by default) as well as the pair of
comparisons `(col >= lo) & (col <= hi)`; a missing value compares as
False on both, so it never lies inside any range. -/
def inClosedRange {π : Type} [LinearOrder π] (o : Option π) (lo hi : π) : Bool :=
  o.elim false fun x => decide (lo ≤ x) && decide (x ≤ hi)

/-- Target filter of `app.py` line 120: keep rows whose `target` is in the
selected allow-list (`isin`, exact string equality). -/
def targetStage {π : Type} (df : List (Row π)) (sel : List String) : List (Row π) :=
  df.filter fun r => sel.contains r.target

/-- Drug-likeness filter of `app.py` lines 123-125: applied only when the
checkbox is set; keeps rows whose `is_drug_like` entry is True. -/
def drugLikeStage {π : Type} (df : List (Row π)) (dlo : Bool) : List (Row π) :=
  if dlo then df.filter (fun r => decide (r.is_drug_like = some true)) else df

/-- Condition of `app.py` line 136 (given that the column exists): the
`pIC50` column is not entirely null. -/
def pic50Available {π : Type} (df : List (Row π)) : Bool :=
  df.any fun r => r.pIC50.isSome

/-- The pIC50 range filter of `app.py` lines 134-146: when some `pIC50`
value is defined, keep the rows with `lo <= pIC50 <= hi`; otherwise the
slider is not created and no constraint is applied. -/
def pic50Stage {π : Type} [LinearOrder π] (df : List (Row π)) (pLo pHi : π) :
    List (Row π) :=
  if pic50Available df then df.filter (fun r => inClosedRange r.pIC50 pLo pHi)
  else df

/-- `filtered_df` of `app.py` lines 116-152: the target filter, the
optional drug-likeness filter, the conditional pIC50 range filter, and
finally the mw and logp `between` filters, applied in the order of the
source. -/
def filtered_df {π : Type} [LinearOrder π] (df : List (Row π))
    (sel : List String) (dlo : Bool) (mwLo mwHi lpLo lpHi : ℚ) (pLo pHi : π) :
    List (Row π) :=
  let df1 := targetStage df sel
  let df2 := drugLikeStage df1 dlo
  let df3 := pic50Stage df2 pLo pHi
  df3.filter fun r => inClosedRange r.mw mwLo mwHi && inClosedRange r.logp lpLo lpHi

/-- Minimum of a pandas numeric column: NaN cells are skipped, the minimum
of an empty column is NaN (`none`). -/
def colMin (vs : List ℚ) : Option ℚ :=
  vs.foldl (fun acc x => match acc with | none => some x | some m => some (min m x)) none

/-- Maximum of a pandas numeric column, NaN-skipping as for `colMin`. -/
def colMax (vs : List ℚ) : Option ℚ :=
  vs.foldl (fun acc x => match acc with | none => some x | some m => some (max m x)) none

/-- Slider bound derivation of `app.py` line 128: the min and max of the
`mw` column are taken from the table that the target filter (line 120) and
the drug-likeness filter (line 125) have already narrowed. -/
def mwSliderBounds {π : Type} (df : List (Row π)) (sel : List String)
    (dlo : Bool) : Option ℚ × Option ℚ :=
  let df2 := drugLikeStage (targetStage df sel) dlo
  (colMin (df2.filterMap fun r => r.mw), colMax (df2.filterMap fun r => r.mw))

/-- Count of True entries of the `is_drug_like` column
(`df[is_drug_like].sum()`, `app.py` line 106). -/
def drugLikeCount {π : Type} (df : List (Row π)) : ℕ :=
  df.countP fun r => decide (r.is_drug_like = some true)

/-- Mean of the `pIC50` column (`df[pIC50].mean()`, `app.py` line 109, and
the skipna mean used by every pandas aggregation): missing values are
skipped, the mean of an empty or all-missing column is NaN (`none`). -/
noncomputable def meanPIC50 (df : List (Row ℝ)) : Option ℝ :=
  let vs := df.filterMap fun r => r.pIC50
  if vs.isEmpty then none else some (vs.sum / (vs.length : ℝ))

/-- An IEEE/numpy double, idealised: a finite value carries an exact real,
and the special values NaN, +inf, -inf are explicit (signed zeros are
collapsed to `val 0`).  Needed where the source leaves float arithmetic
unguarded: `activity_analyzer.py` line 22 and the `app.py` line 107
division. -/
inductive NpFloat where
  | val : ℝ → NpFloat
  | posInf : NpFloat
  | negInf : NpFloat
  | nan : NpFloat

/-- Pandas missingness (`isnull`): only NaN is missing; the infinities are
ordinary, non-missing numbers for pandas and numpy. -/
def NpFloat.isMissing : NpFloat → Bool
  | .nan => true
  | _ => false

/-- `np.log10` on a double: positive finite arguments give the real
logarithm, `log10(0)` is `-inf` (with a RuntimeWarning, not an exception),
a negative argument gives NaN, and the special values follow IEEE. -/
noncomputable def npLog10 : NpFloat → NpFloat
  | .val x => if 0 < x then .val (Real.logb 10 x) else if x = 0 then .negInf else .nan
  | .posInf => .posInf
  | .negInf => .nan
  | .nan => .nan

/-- IEEE negation. -/
def npNeg : NpFloat → NpFloat
  | .val x => .val (-x)
  | .posInf => .negInf
  | .negInf => .posInf
  | .nan => .nan

/-- Multiplication by a positive finite constant `c` (the `* 1e-9` of
`activity_analyzer.py` line 22). -/
def npMulPos (c : ℝ) : NpFloat → NpFloat
  | .val x => .val (x * c)
  | .posInf => .posInf
  | .negInf => .negInf
  | .nan => .nan

/-- The unguarded pIC50 transform of `activity_analyzer.py` line 22:
`-np.log10(ic50 * 1e-9)`, with no non-positivity guard. -/
noncomputable def activity_pic50 (v : NpFloat) : NpFloat :=
  npNeg (npLog10 (npMulPos (1 / 1000000000) v))

/-- IEEE division of doubles: `0/0` and `inf/inf` are NaN, `x/0` for
nonzero finite `x` is a signed infinity (numpy emits a RuntimeWarning but
raises no exception), NaN propagates. -/
noncomputable def npDiv : NpFloat → NpFloat → NpFloat
  | .nan, _ => .nan
  | _, .nan => .nan
  | .val x, .val y =>
      if y = 0 then (if x = 0 then .nan else if 0 < x then .posInf else .negInf)
      else .val (x / y)
  | .posInf, .val y => if 0 ≤ y then .posInf else .negInf
  | .negInf, .val y => if 0 ≤ y then .negInf else .posInf
  | .val _, .posInf => .val 0
  | .val _, .negInf => .val 0
  | .posInf, .posInf => .nan
  | .posInf, .negInf => .nan
  | .negInf, .posInf => .nan
  | .negInf, .negInf => .nan

/-- IEEE multiplication of doubles: NaN propagates, `0 * inf` is NaN. -/
noncomputable def npMul : NpFloat → NpFloat → NpFloat
  | .nan, _ => .nan
  | _, .nan => .nan
  | .val x, .val y => .val (x * y)
  | .posInf, .val y => if y = 0 then .nan else if 0 < y then .posInf else .negInf
  | .negInf, .val y => if y = 0 then .nan else if 0 < y then .negInf else .posInf
  | .val x, .posInf => if x = 0 then .nan else if 0 < x then .posInf else .negInf
  | .val x, .negInf => if x = 0 then .nan else if 0 < x then .negInf else .posInf
  | .posInf, .posInf => .posInf
  | .posInf, .negInf => .negInf
  | .negInf, .posInf => .negInf
  | .negInf, .negInf => .posInf

/-- The drug-like percentage of the dataset overview (`app.py` line 107):
`drug_like_count / len(df) * 100` computed in float arithmetic (the pandas
sum is a numpy integer, so the division follows IEEE semantics and never
raises). -/
noncomputable def drugLikePct (df : List (Row ℝ)) : NpFloat :=
  npMul (npDiv (NpFloat.val (drugLikeCount df)) (NpFloat.val (df.length)))
    (NpFloat.val 100)

/-! Helper lemmas about the filter stages, shared by several claims. -/

lemma inClosedRange_iff {π : Type} [LinearOrder π] (o : Option π) (lo hi : π) :
    inClosedRange o lo hi = true ↔ ∃ x, o = some x ∧ lo ≤ x ∧ x ≤ hi := by
  cases o <;> simp [inClosedRange]

lemma mem_targetStage {π : Type} (df : List (Row π)) (sel : List String) (r : Row π) :
    r ∈ targetStage df sel ↔ r ∈ df ∧ r.target ∈ sel := by
  simp [targetStage, List.mem_filter]

lemma mem_drugLikeStage {π : Type} (df : List (Row π)) (dlo : Bool) (r : Row π) :
    r ∈ drugLikeStage df dlo ↔ r ∈ df ∧ (dlo = true → r.is_drug_like = some true) := by
  cases dlo <;> simp [drugLikeStage, List.mem_filter]

lemma mem_pic50Stage {π : Type} [LinearOrder π] (df : List (Row π)) (pLo pHi : π)
    (r : Row π) :
    r ∈ pic50Stage df pLo pHi ↔
      r ∈ df ∧ (pic50Available df = true →
        ∃ v, r.pIC50 = some v ∧ pLo ≤ v ∧ v ≤ pHi) := by
  by_cases h : pic50Available df = true <;>
    simp [pic50Stage, h, List.mem_filter, inClosedRange_iff]

lemma mem_filtered_df {π : Type} [LinearOrder π] (df : List (Row π))
    (sel : List String) (dlo : Bool) (mwLo mwHi lpLo lpHi : ℚ) (pLo pHi : π)
    (r : Row π) :
    r ∈ filtered_df df sel dlo mwLo mwHi lpLo lpHi pLo pHi ↔
      r ∈ df ∧ r.target ∈ sel ∧
      (dlo = true → r.is_drug_like = some true) ∧
      (∃ x, r.mw = some x ∧ mwLo ≤ x ∧ x ≤ mwHi) ∧
      (∃ x, r.logp = some x ∧ lpLo ≤ x ∧ x ≤ lpHi) ∧
      (pic50Available (drugLikeStage (targetStage df sel) dlo) = true →
        ∃ v, r.pIC50 = some v ∧ pLo ≤ v ∧ v ≤ pHi) := by
  unfold filtered_df
  simp only [List.mem_filter, Bool.and_eq_true, inClosedRange_iff,
    mem_pic50Stage, mem_drugLikeStage, mem_targetStage]
  tauto

/-! Claim C1. -/

/-- C1: for every input table row with mw, logp, hbd, hba all present,
`calculate_lipinski` keeps the row and assigns `lipinski_violations` equal
to the exact count, between 0 and 4, of the four independently evaluated
conditions mw > 500, logp > 5, hbd > 5, hba > 10, and assigns
`is_drug_like` true iff that count is 0; the psa and ic50 columns play no
role in either derived value. -/
theorem lipinski_exact_violation_count {π : Type} (df : List (Row π))
    (r : Row π) (mwv lpv hbv hav : ℚ) (hr : r ∈ df) (h1 : r.mw = some mwv)
    (h2 : r.logp = some lpv) (h3 : r.hbd = some hbv) (h4 : r.hba = some hav) :
    ∃ r' ∈ calculate_lipinski df,
      r'.mw = r.mw ∧ r'.logp = r.logp ∧ r'.hbd = r.hbd ∧ r'.hba = r.hba ∧
      r'.psa = r.psa ∧ r'.ic50 = r.ic50 ∧
      r'.lipinski_violations =
        some (([decide (mwv > 500), decide (lpv > 5), decide (hbv > 5),
          decide (hav > 10)].count true : ℤ)) ∧
      (∃ n : ℤ, r'.lipinski_violations = some n ∧ 0 ≤ n ∧ n ≤ 4) ∧
      r'.is_drug_like.isSome = true ∧
      (r'.is_drug_like = some true ↔
        [decide (mwv > 500), decide (lpv > 5), decide (hbv > 5),
          decide (hav > 10)].count true = 0) ∧
      (∀ p' i', violationCount { r with psa := p', ic50 := i' } =
        violationCount r) := by
  have hHas : hasLipinskiInputs r = true := by
    simp [hasLipinskiInputs, h1, h2, h3, h4]
  have hv : violationCount r =
      (([decide (mwv > 500), decide (lpv > 5), decide (hbv > 5),
        decide (hav > 10)].count true : ℕ) : ℤ) := by
    cases hA : decide (500 < mwv) <;> cases hB : decide (5 < lpv) <;>
      cases hC : decide (5 < hbv) <;> cases hD : decide (10 < hav) <;>
      simp [violationCount, qgt, h1, h2, h3, h4, hA, hB, hC, hD,
        List.count_cons]
  refine ⟨lipinskiRow r,
    List.mem_map.mpr ⟨r, List.mem_filter.mpr ⟨hr, hHas⟩, rfl⟩,
    rfl, rfl, rfl, rfl, rfl, rfl, ?_, ?_, rfl, ?_, fun _ _ => rfl⟩
  · simpa [lipinskiRow] using congrArg some hv
  · refine ⟨violationCount r, rfl, ?_, ?_⟩
    · rw [hv]; positivity
    · rw [hv]
      have : ([decide (mwv > 500), decide (lpv > 5), decide (hbv > 5),
          decide (hav > 10)].count true) ≤ 4 :=
        List.count_le_length true _
      exact_mod_cast this
  · simp only [lipinskiRow, Option.some.injEq, decide_eq_true_eq, hv]
    constructor
    · intro h
      exact_mod_cast h
    · intro h
      exact_mod_cast h

/-- Sample compound D of `tests/test_analysis.py`: two violations
(logp 6 > 5 and hba 12 > 10). -/
def rowD : Row ℚ :=
  { chembl_id := "CHEMBL4", name := some "Drug D", ic50 := some 150,
    mw := some 400, logp := some 6, hbd := some 3, hba := some 12,
    psa := some 110 }

/-- Witness for C1: the theorem applied to the singleton table holding the
fixture compound D (mw 400, logp 6, hbd 3, hba 12). -/
theorem lipinski_exact_violation_count_witness :
    ∃ r' ∈ calculate_lipinski [rowD],
      r'.mw = rowD.mw ∧ r'.logp = rowD.logp ∧ r'.hbd = rowD.hbd ∧
      r'.hba = rowD.hba ∧ r'.psa = rowD.psa ∧ r'.ic50 = rowD.ic50 ∧
      r'.lipinski_violations =
        some (([decide ((400 : ℚ) > 500), decide ((6 : ℚ) > 5),
          decide ((3 : ℚ) > 5), decide ((12 : ℚ) > 10)].count true : ℤ)) ∧
      (∃ n : ℤ, r'.lipinski_violations = some n ∧ 0 ≤ n ∧ n ≤ 4) ∧
      r'.is_drug_like.isSome = true ∧
      (r'.is_drug_like = some true ↔
        [decide ((400 : ℚ) > 500), decide ((6 : ℚ) > 5),
          decide ((3 : ℚ) > 5), decide ((12 : ℚ) > 10)].count true = 0) ∧
      (∀ p' i', violationCount { rowD with psa := p', ic50 := i' } =
        violationCount rowD) :=
  lipinski_exact_violation_count [rowD] rowD 400 6 3 12
    (List.mem_singleton.mpr rfl) rfl rfl rfl rfl

/-! Claim C2: numeric helper lemmas for base-10 logarithms, then the
theorem. -/

lemma div_lt_logb_of_pow_lt (x : ℝ) (n m : ℕ) (hm : 0 < m)
    (h : (10 : ℝ) ^ n < x ^ m) : (n : ℝ) / m < Real.logb 10 x := by
  have h10 : (1 : ℝ) < 10 := by norm_num
  have hx : 0 < x ^ m := lt_trans (pow_pos (by norm_num) n) h
  have key := Real.logb_lt_logb h10 (pow_pos (by norm_num : (0:ℝ) < 10) n) h
  rw [Real.logb_pow, Real.logb_pow, Real.logb_self_eq_one h10, mul_one] at key
  rw [div_lt_iff₀ (by exact_mod_cast hm)]
  linarith

lemma logb_lt_div_of_lt_pow (x : ℝ) (n m : ℕ) (hm : 0 < m) (hx : 0 < x)
    (h : x ^ m < (10 : ℝ) ^ n) : Real.logb 10 x < (n : ℝ) / m := by
  have h10 : (1 : ℝ) < 10 := by norm_num
  have key := Real.logb_lt_logb h10 (pow_pos hx m) h
  rw [Real.logb_pow, Real.logb_pow, Real.logb_self_eq_one h10, mul_one] at key
  rw [lt_div_iff₀ (by exact_mod_cast hm)]
  linarith

lemma neg_logb_molar_shift (x : ℝ) (hx : 0 < x) :
    -(Real.logb 10 (x * (1 / 1000000000))) = 9 - Real.logb 10 x := by
  have h10 : (1 : ℝ) < 10 := by norm_num
  have h9 : ((1 : ℝ) / 1000000000) = ((10 : ℝ) ^ (9 : ℕ))⁻¹ := by norm_num
  rw [Real.logb_mul (ne_of_gt hx) (by norm_num), h9, Real.logb_inv,
    Real.logb_pow, Real.logb_self_eq_one h10]
  ring

lemma logb_ten_and_half_bounds :
    1.021 < Real.logb 10 10.5 ∧ Real.logb 10 10.5 < 1.022 := by
  constructor
  · have := div_lt_logb_of_pow_lt 10.5 1021 1000 (by norm_num) (by norm_num)
    calc (1.021 : ℝ) = (1021 : ℕ) / (1000 : ℕ) := by norm_num
    _ < Real.logb 10 10.5 := this
  · have := logb_lt_div_of_lt_pow 10.5 1022 1000 (by norm_num) (by norm_num)
      (by norm_num)
    calc Real.logb 10 10.5 < (1022 : ℕ) / (1000 : ℕ) := this
    _ = (1.022 : ℝ) := by norm_num

lemma logb_six_hundred_bounds :
    2.778 < Real.logb 10 600 ∧ Real.logb 10 600 < 2.779 := by
  constructor
  · have := div_lt_logb_of_pow_lt 600 2778 1000 (by norm_num) (by norm_num)
    calc (2.778 : ℝ) = (2778 : ℕ) / (1000 : ℕ) := by norm_num
    _ < Real.logb 10 600 := this
  · have := logb_lt_div_of_lt_pow 600 2779 1000 (by norm_num) (by norm_num)
      (by norm_num)
    calc Real.logb 10 600 < (2779 : ℕ) / (1000 : ℕ) := this
    _ = (2.779 : ℝ) := by norm_num

lemma pic50val_pos (x : ℚ) (hx : 0 < x) :
    pic50val (some x) =
      some (-(Real.logb 10 ((x : ℝ) * (1 / 1000000000)))) := by
  have hguard : ¬ (x * (1 / 1000000000) ≤ 0) := by
    push_neg
    positivity
  have hcast : (((x * (1 / 1000000000) : ℚ)) : ℝ) = (x : ℝ) * (1 / 1000000000) := by
    push_cast
    ring
  simp only [pic50val, ic50M, if_neg hguard]
  rw [hcast]

/-- C2: for every row with ic50 = x > 0, `calculate_pic50` keeps the row
and assigns pIC50 = -log10(x * 1e-9) (exactly, in the real-number
idealisation of float arithmetic); the ic50 column is left untouched; in
particular ic50 = 10.5 nM gives pIC50 within 1/1000 of 7.9788 and
ic50 = 600 gives pIC50 within 1/1000 of 6.2218. -/
theorem pic50_matches_neg_log10 (df : List (Row ℝ)) (r : Row ℝ) (x : ℚ)
    (hr : r ∈ df) (hic : r.ic50 = some x) (hx : 0 < x) :
    (∃ r' ∈ calculate_pic50 df, r'.ic50 = some x ∧
      r'.pIC50 = some (-(Real.logb 10 ((x : ℝ) * (1 / 1000000000))))) ∧
    (calculate_pic50 df).map (fun s => s.ic50) = df.map (fun s => s.ic50) ∧
    (∃ v : ℝ, pic50val (some (10.5 : ℚ)) = some v ∧ |v - 7.9788| < 1 / 1000) ∧
    (∃ v : ℝ, pic50val (some (600 : ℚ)) = some v ∧ |v - 6.2218| < 1 / 1000) := by
  refine ⟨?_, ?_, ?_, ?_⟩
  · refine ⟨eraseIc50M { r with ic50_M := ic50M r.ic50, pIC50 := pic50val r.ic50 },
      ?_, ?_, ?_⟩
    · exact List.mem_map.mpr
        ⟨{ r with ic50_M := ic50M r.ic50, pIC50 := pic50val r.ic50 },
         List.mem_map.mpr ⟨r, hr, rfl⟩, rfl⟩
    · exact hic
    · show pic50val r.ic50 = _
      rw [hic, pic50val_pos x hx]
  · rw [calculate_pic50, calculate_pic50_argAfter, List.map_map, List.map_map]
    rfl
  · refine ⟨9 - Real.logb 10 10.5, ?_, ?_⟩
    · rw [pic50val_pos (10.5 : ℚ) (by norm_num)]
      rw [show (((10.5 : ℚ) : ℝ)) = (10.5 : ℝ) by norm_num]
      rw [neg_logb_molar_shift 10.5 (by norm_num)]
    · rcases logb_ten_and_half_bounds with ⟨hlo, hhi⟩
      rw [abs_lt]
      constructor <;> [linarith; linarith]
  · refine ⟨9 - Real.logb 10 600, ?_, ?_⟩
    · rw [pic50val_pos (600 : ℚ) (by norm_num)]
      rw [show (((600 : ℚ) : ℝ)) = (600 : ℝ) by norm_num]
      rw [neg_logb_molar_shift 600 (by norm_num)]
    · rcases logb_six_hundred_bounds with ⟨hlo, hhi⟩
      rw [abs_lt]
      constructor <;> [linarith; linarith]

/-- The fixture compound A: ic50 10.5 nM. -/
noncomputable def rowR : Row ℝ :=
  { chembl_id := "CHEMBL1", name := some "Drug A", target := "COX1",
    ic50 := some (10.5 : ℚ), mw := some 450, logp := some (4.5 : ℚ),
    hbd := some 4, hba := some 8, psa := some 90 }

/-- Witness for C2: the theorem applied to the singleton table holding the
fixture compound with ic50 = 10.5. -/
theorem pic50_matches_neg_log10_witness :
    (∃ r' ∈ calculate_pic50 [rowR], r'.ic50 = some (10.5 : ℚ) ∧
      r'.pIC50 =
        some (-(Real.logb 10 (((10.5 : ℚ) : ℝ) * (1 / 1000000000))))) ∧
    (calculate_pic50 [rowR]).map (fun s => s.ic50) = [rowR].map (fun s => s.ic50) ∧
    (∃ v : ℝ, pic50val (some (10.5 : ℚ)) = some v ∧ |v - 7.9788| < 1 / 1000) ∧
    (∃ v : ℝ, pic50val (some (600 : ℚ)) = some v ∧ |v - 6.2218| < 1 / 1000) :=
  pic50_matches_neg_log10 [rowR] rowR (10.5 : ℚ)
    (List.mem_singleton.mpr rfl) rfl (by norm_num)

/-! Claim C3. -/

/-- Rows whose ic50 is present and strictly positive. -/
def posIC50 {π : Type} (r : Row π) : Bool :=
  r.ic50.elim false fun x => decide (0 < x)

lemma pic50val_nonpos (x : ℚ) (hx : x ≤ 0) : pic50val (some x) = none := by
  have hguard : x * (1 / 1000000000) ≤ 0 := by nlinarith
  simp only [pic50val, ic50M]
  rw [if_pos hguard]

lemma filterMap_pic50_calculate_pic50 (df : List (Row ℝ)) :
    (calculate_pic50 df).filterMap (fun r => r.pIC50) =
      df.filterMap fun r => pic50val r.ic50 := by
  rw [calculate_pic50, calculate_pic50_argAfter, List.map_map,
    List.filterMap_map]
  rfl

lemma filterMap_pic50_pos_filter (df : List (Row ℝ)) :
    (df.filterMap fun r => pic50val r.ic50) =
      ((df.filter posIC50).filterMap fun r => pic50val r.ic50) := by
  induction df with
  | nil => rfl
  | cons r t ih =>
      by_cases hp : posIC50 r = true
      · rw [List.filter_cons_of_pos hp, List.filterMap_cons,
          List.filterMap_cons, ih]
      · rw [List.filter_cons_of_neg hp, List.filterMap_cons]
        have hnone : pic50val r.ic50 = none := by
          cases hic : r.ic50 with
          | none => rfl
          | some x =>
              rw [posIC50, hic] at hp
              simp only [Option.elim_some, decide_eq_true_eq] at hp
              exact pic50val_nonpos x (not_lt.mp hp)
        rw [hnone, ih]

/-- Reduction of `npLog10` on a finite value. -/
lemma npLog10_val (x : ℝ) :
    npLog10 (NpFloat.val x) =
      if 0 < x then NpFloat.val (Real.logb 10 x)
      else if x = 0 then NpFloat.negInf else NpFloat.nan := rfl

lemma activity_pic50_val_zero :
    activity_pic50 (NpFloat.val 0) = NpFloat.posInf := by
  unfold activity_pic50
  have h0 : npMulPos (1 / 1000000000) (NpFloat.val 0) = NpFloat.val 0 := by
    show NpFloat.val ((0 : ℝ) * (1 / 1000000000)) = NpFloat.val 0
    rw [zero_mul]
  rw [h0, npLog10_val, if_neg (lt_irrefl (0 : ℝ)), if_pos rfl]
  rfl

lemma activity_pic50_val_neg (x : ℝ) (hx : x < 0) :
    activity_pic50 (NpFloat.val x) = NpFloat.nan := by
  have hc : x * (1 / 1000000000) < 0 := by nlinarith
  unfold activity_pic50
  show npNeg (npLog10 (NpFloat.val (x * (1 / 1000000000)))) = NpFloat.nan
  rw [npLog10_val, if_neg (not_lt.mpr hc.le), if_neg hc.ne]
  rfl

/-- C3 counterexample: the claim asserts that every place performing the
IC50 to pIC50 transform yields a missing value on non-positive inputs, but
the unguarded transform of `activity_analyzer.py` line 22 maps ic50 = 0 to
`-log10(0) = +inf`, a defined, non-missing float (pandas `isnull` is False
on infinities, so such a row is not excluded from aggregates). -/
theorem activity_pic50_zero_not_missing :
    activity_pic50 (NpFloat.val 0) = NpFloat.posInf ∧
      (activity_pic50 (NpFloat.val 0)).isMissing = false := by
  refine ⟨activity_pic50_val_zero, ?_⟩
  rw [activity_pic50_val_zero]
  rfl

/-- C3 amended: in `calculate_pic50` (the Property Transformer) every row
with ic50 <= 0, and every row with missing ic50, gets a missing pIC50 and
is excluded from the mean-pIC50 aggregate (removing those rows does not
change the mean); the secondary transform in `activity_analyzer.py` yields
missing (NaN) for ic50 < 0 but yields +inf, a defined value, for
ic50 = 0. -/
theorem pic50_nonpositive_missing_amended :
    (∀ x : ℚ, x ≤ 0 → pic50val (some x) = none) ∧
    pic50val none = none ∧
    (∀ df : List (Row ℝ),
      meanPIC50 (calculate_pic50 df) =
        meanPIC50 (calculate_pic50 (df.filter posIC50))) ∧
    (∀ x : ℝ, x < 0 → activity_pic50 (NpFloat.val x) = NpFloat.nan) ∧
    activity_pic50 (NpFloat.val 0) = NpFloat.posInf := by
  refine ⟨pic50val_nonpos, rfl, ?_, activity_pic50_val_neg,
    activity_pic50_val_zero⟩
  intro df
  have h : (calculate_pic50 df).filterMap (fun r => r.pIC50) =
      (calculate_pic50 (df.filter posIC50)).filterMap fun r => r.pIC50 := by
    rw [filterMap_pic50_calculate_pic50, filterMap_pic50_calculate_pic50,
      filterMap_pic50_pos_filter]
  simp only [meanPIC50, h]

/-- Witness for the amended C3: concrete non-positive inputs. -/
theorem pic50_nonpositive_missing_amended_witness :
    pic50val (some (-1 : ℚ)) = none ∧
      activity_pic50 (NpFloat.val (-2)) = NpFloat.nan :=
  ⟨pic50_nonpositive_missing_amended.1 (-1) (by norm_num),
   pic50_nonpositive_missing_amended.2.2.2.1 (-2) (by norm_num)⟩

/-! Claim C4. -/

/-- C4: a row is in `filtered_df` iff it is in the input table and
satisfies every active constraint — exact string membership in the target
allow-list, the drug-likeness flag when set, the inclusive mw and logp
ranges (a missing value never lies in a range), and, when the pIC50 filter
is active (some pIC50 defined after the earlier filters), the inclusive
pIC50 range; so the result is the intersection of the per-constraint
satisfying sets. -/
theorem filtered_df_intersection_semantics {π : Type} [LinearOrder π]
    (df : List (Row π)) (sel : List String) (dlo : Bool)
    (mwLo mwHi lpLo lpHi : ℚ) (pLo pHi : π) (r : Row π) :
    r ∈ filtered_df df sel dlo mwLo mwHi lpLo lpHi pLo pHi ↔
      r ∈ df ∧ r.target ∈ sel ∧
      (dlo = true → r.is_drug_like = some true) ∧
      (∃ x, r.mw = some x ∧ mwLo ≤ x ∧ x ≤ mwHi) ∧
      (∃ x, r.logp = some x ∧ lpLo ≤ x ∧ x ≤ lpHi) ∧
      (pic50Available (drugLikeStage (targetStage df sel) dlo) = true →
        ∃ v, r.pIC50 = some v ∧ pLo ≤ v ∧ v ≤ pHi) :=
  mem_filtered_df df sel dlo mwLo mwHi lpLo lpHi pLo pHi r

/-- A fully populated sample compound over ℚ, used to instantiate the
filter-engine theorems. -/
def rowCox : Row ℚ :=
  { chembl_id := "CHEMBL123", name := some "Aspirin", target := "COX1",
    ic50 := some 500, mw := some 180, logp := some 1, hbd := some 1,
    hba := some 4, psa := some 63, lipinski_violations := some 0,
    is_drug_like := some true, pIC50 := some 6 }

/-- Witness for C4: the characterisation instantiated at a concrete table
and concrete constraints. -/
theorem filtered_df_intersection_semantics_witness :
    rowCox ∈ filtered_df [rowCox] ["COX1"] false 0 1000 0 10 (0 : ℚ) 10 ↔
      rowCox ∈ [rowCox] ∧ rowCox.target ∈ ["COX1"] ∧
      (false = true → rowCox.is_drug_like = some true) ∧
      (∃ x, rowCox.mw = some x ∧ 0 ≤ x ∧ x ≤ 1000) ∧
      (∃ x, rowCox.logp = some x ∧ 0 ≤ x ∧ x ≤ 10) ∧
      (pic50Available (drugLikeStage (targetStage [rowCox] ["COX1"]) false) = true →
        ∃ v, rowCox.pIC50 = some v ∧ (0 : ℚ) ≤ v ∧ v ≤ 10) :=
  filtered_df_intersection_semantics [rowCox] ["COX1"] false 0 1000 0 10 0 10
    rowCox

/-! Claim C5. -/

/-- A row whose mw cell is missing: `calculate_lipinski` removes it from
its argument in place. -/
def mutRowA : Row ℝ :=
  { chembl_id := "A", logp := some 1, hbd := some 1, hba := some 1 }

/-- A row with a positive ic50: `calculate_pic50` adds the `ic50_M` and
`pIC50` columns to its argument in place. -/
def mutRowB : Row ℝ :=
  { chembl_id := "B", ic50 := some 10 }

/-- C5 counterexample: both transforms mutate the table object passed to
them — after `calculate_lipinski([mutRowA])` the argument has lost its
row, and after `calculate_pic50([mutRowB])` the argument has gained the
`ic50_M` column — so the claim that the argument is unaffected fails. -/
theorem transforms_mutate_argument :
    (calculate_lipinski_call [mutRowA]).2 ≠ [mutRowA] ∧
      (calculate_pic50_call [mutRowB]).2 ≠ [mutRowB] := by
  constructor
  · have h : (calculate_lipinski_call [mutRowA]).2 = ([] : List (Row ℝ)) := rfl
    rw [h]
    intro habs
    exact List.noConfusion habs
  · intro habs
    have h2 := congrArg (List.map fun r => r.ic50_M) habs
    simp only [calculate_pic50_call, calculate_pic50_argAfter, List.map_map,
      List.map_cons, List.map_nil, Function.comp] at h2
    have h3 : ic50M (some (10 : ℚ)) = none := List.cons_eq_cons.mp h2 |>.1
    simp only [ic50M] at h3
    rw [if_neg (by norm_num)] at h3
    exact Option.noConfusion h3

/-- Clear the columns `calculate_pic50` writes. -/
def erasePic50Cols {π : Type} (r : Row π) : Row π :=
  { r with ic50_M := none, pIC50 := none }

/-- Clear the columns `calculate_lipinski` writes. -/
def eraseLipinskiCols {π : Type} (r : Row π) : Row π :=
  { r with lipinski_violations := none, is_drug_like := none }

/-- C5 amended: the transforms do mutate their argument, but in a precisely
bounded way: `calculate_lipinski` returns exactly its mutated argument
(dropping null-input rows and writing only the two derived columns), and
`calculate_pic50` returns its mutated argument minus the `ic50_M` column
(writing only `ic50_M` and `pIC50` on the argument); both are pure
functions of the input, and the call sites in `app.py` pass a defensive
copy, so the session table of the caller is unaffected there. -/
theorem transforms_mutation_characterization (df : List (Row ℝ)) :
    (calculate_lipinski_call df).1 = (calculate_lipinski_call df).2 ∧
    (calculate_pic50_call df).1 = ((calculate_pic50_call df).2).map eraseIc50M ∧
    ((calculate_pic50_call df).2).map erasePic50Cols = df.map erasePic50Cols ∧
    ((calculate_lipinski_call df).2).map eraseLipinskiCols =
      (df.filter hasLipinskiInputs).map eraseLipinskiCols := by
  refine ⟨rfl, rfl, ?_, ?_⟩
  · show (calculate_pic50_argAfter df).map erasePic50Cols = df.map erasePic50Cols
    rw [calculate_pic50_argAfter, List.map_map]
    rfl
  · show (calculate_lipinski df).map eraseLipinskiCols = _
    rw [calculate_lipinski, List.map_map]
    rfl

/-! Claim C6. -/

lemma calculate_pic50_as_single_map (d : List (Row ℝ)) :
    calculate_pic50 d =
      d.map fun r => { r with ic50_M := none, pIC50 := pic50val r.ic50 } := by
  rw [calculate_pic50, calculate_pic50_argAfter, List.map_map]
  rfl

/-- C6: the two transforms commute (they read and write disjoint columns)
and each is idempotent: running `calculate_lipinski` again after the rows
are already null-filtered is a no-op, and running `calculate_pic50` again
recomputes the same values from the unchanged ic50 column. -/
theorem transforms_commute_and_idempotent (df : List (Row ℝ)) :
    calculate_lipinski (calculate_pic50 df) =
      calculate_pic50 (calculate_lipinski df) ∧
    calculate_lipinski (calculate_lipinski df) = calculate_lipinski df ∧
    calculate_pic50 (calculate_pic50 df) = calculate_pic50 df := by
  refine ⟨?_, ?_, ?_⟩
  · rw [calculate_pic50_as_single_map df, calculate_lipinski, List.filter_map,
      List.map_map, calculate_lipinski,
      calculate_pic50_as_single_map ((df.filter hasLipinskiInputs).map lipinskiRow),
      List.map_map]
    rfl
  · rw [calculate_lipinski, calculate_lipinski]
    have hstep : ((df.filter hasLipinskiInputs).map lipinskiRow).filter
        hasLipinskiInputs = (df.filter hasLipinskiInputs).map lipinskiRow := by
      apply List.filter_eq_self.mpr
      intro a ha
      rcases List.mem_map.mp ha with ⟨b, hb, rfl⟩
      exact (List.mem_filter.mp hb).2
    rw [hstep, List.map_map]
    rfl
  · rw [calculate_pic50_as_single_map df,
      calculate_pic50_as_single_map
        (df.map fun r => { r with ic50_M := none, pIC50 := pic50val r.ic50 }),
      List.map_map]
    rfl

/-! Claim C7: helper lemmas, counterexample, amended theorem. -/

lemma contains_eq_true_of_mem {x : String} {s : List String} (h : x ∈ s) :
    s.contains x = true := by
  simpa using h

lemma mem_stage2_of_mem_filtered_df {π : Type} [LinearOrder π]
    {df : List (Row π)} {sel : List String} {dlo : Bool}
    {mwLo mwHi lpLo lpHi : ℚ} {pLo pHi : π} {r : Row π}
    (h : r ∈ filtered_df df sel dlo mwLo mwHi lpLo lpHi pLo pHi) :
    r ∈ drugLikeStage (targetStage df sel) dlo := by
  rcases (mem_filtered_df df sel dlo mwLo mwHi lpLo lpHi pLo pHi r).mp h with
    ⟨hdf, htgt, hdlo, _⟩
  exact (mem_drugLikeStage _ dlo r).mpr
    ⟨(mem_targetStage df sel r).mpr ⟨hdf, htgt⟩, hdlo⟩

lemma inClosedRange_widen {π : Type} [LinearOrder π] {o : Option π}
    {lo hi lo' hi' : π} (h : inClosedRange o lo hi = true) (hlo : lo' ≤ lo)
    (hhi : hi ≤ hi') : inClosedRange o lo' hi' = true := by
  rcases (inClosedRange_iff o lo hi).mp h with ⟨x, hx, h1, h2⟩
  exact (inClosedRange_iff o lo' hi').mpr ⟨x, hx, le_trans hlo h1, le_trans h2 hhi⟩

/-- A target-A row with missing pIC50. -/
def rowA1 : Row ℚ :=
  { chembl_id := "1", target := "A", mw := some 100, logp := some 1 }

/-- A second target-A row with missing pIC50. -/
def rowA2 : Row ℚ :=
  { chembl_id := "2", target := "A", mw := some 100, logp := some 1 }

/-- A target-B row with pIC50 = 7. -/
def rowB7 : Row ℚ :=
  { chembl_id := "3", target := "B", mw := some 100, logp := some 1,
    pIC50 := some 7 }

/-- C7 counterexample: adding a target to the allow-list can decrease the
filtered row count.  With two target-A rows whose pIC50 is missing and one
target-B row with pIC50 = 7, the allow-list {A} leaves the pIC50 filter
inactive (count 2), while adding B activates it and the two A rows are
removed (count 1). -/
theorem target_addition_can_decrease_count :
    (filtered_df [rowA1, rowA2, rowB7] ["A"] false 0 200 0 2
        (7 : ℚ) 7).length = 2 ∧
    (filtered_df [rowA1, rowA2, rowB7] ("B" :: ["A"]) false 0 200 0 2
        (7 : ℚ) 7).length = 1 ∧
    (filtered_df [rowA1, rowA2, rowB7] ("B" :: ["A"]) false 0 200 0 2
        (7 : ℚ) 7).length <
      (filtered_df [rowA1, rowA2, rowB7] ["A"] false 0 200 0 2
        (7 : ℚ) 7).length := by
  refine ⟨by decide, by decide, by decide⟩

/-- C7 amended: filtering is idempotent, and widening any of the mw, logp,
pIC50 range constraints never decreases the filtered row count; adding a
target to the allow-list never decreases the count provided it does not
change the activation state of the pIC50 filter (the counterexample shows
that activating it by adding a target can decrease the count). -/
theorem filtering_idempotent_and_monotone_amended {π : Type} [LinearOrder π] :
    (∀ (df : List (Row π)) (sel : List String) (dlo : Bool)
      (mwLo mwHi lpLo lpHi : ℚ) (pLo pHi : π),
      filtered_df (filtered_df df sel dlo mwLo mwHi lpLo lpHi pLo pHi) sel dlo
          mwLo mwHi lpLo lpHi pLo pHi =
        filtered_df df sel dlo mwLo mwHi lpLo lpHi pLo pHi) ∧
    (∀ (df : List (Row π)) (sel : List String) (dlo : Bool)
      (mwLo mwHi lpLo lpHi mwLo' mwHi' lpLo' lpHi' : ℚ) (pLo pHi pLo' pHi' : π),
      mwLo' ≤ mwLo → mwHi ≤ mwHi' → lpLo' ≤ lpLo → lpHi ≤ lpHi' →
      pLo' ≤ pLo → pHi ≤ pHi' →
      (filtered_df df sel dlo mwLo mwHi lpLo lpHi pLo pHi).length ≤
        (filtered_df df sel dlo mwLo' mwHi' lpLo' lpHi' pLo' pHi').length) ∧
    (∀ (df : List (Row π)) (sel : List String) (t : String) (dlo : Bool)
      (mwLo mwHi lpLo lpHi : ℚ) (pLo pHi : π),
      pic50Available (drugLikeStage (targetStage df (t :: sel)) dlo) =
        pic50Available (drugLikeStage (targetStage df sel) dlo) →
      (filtered_df df sel dlo mwLo mwHi lpLo lpHi pLo pHi).length ≤
        (filtered_df df (t :: sel) dlo mwLo mwHi lpLo lpHi pLo pHi).length) := by
  refine ⟨?_, ?_, ?_⟩
  · -- idempotence
    intro df sel dlo mwLo mwHi lpLo lpHi pLo pHi
    set A := filtered_df df sel dlo mwLo mwHi lpLo lpHi pLo pHi with hA
    have hchar := fun r =>
      (mem_filtered_df df sel dlo mwLo mwHi lpLo lpHi pLo pHi r).mp
    have h1 : targetStage A sel = A :=
      List.filter_eq_self.mpr fun r hr =>
        contains_eq_true_of_mem (hchar r hr).2.1
    have h2 : drugLikeStage (targetStage A sel) dlo = A := by
      rw [h1]
      cases dlo with
      | false => rfl
      | true =>
          exact List.filter_eq_self.mpr fun r hr =>
            decide_eq_true ((hchar r hr).2.2.1 rfl)
    have h3 : pic50Stage (drugLikeStage (targetStage A sel) dlo) pLo pHi = A := by
      rw [h2]
      rw [pic50Stage]
      by_cases hav : pic50Available A = true
      · rw [if_pos hav]
        -- the pIC50 filter of the original run was active
        have havOrig : pic50Available
            (drugLikeStage (targetStage df sel) dlo) = true := by
          rcases List.any_eq_true.mp hav with ⟨r0, hr0, hr0s⟩
          exact List.any_eq_true.mpr
            ⟨r0, mem_stage2_of_mem_filtered_df hr0, hr0s⟩
        exact List.filter_eq_self.mpr fun r hr =>
          (inClosedRange_iff r.pIC50 pLo pHi).mpr ((hchar r hr).2.2.2.2.2 havOrig)
      · rw [if_neg hav]
    show (pic50Stage (drugLikeStage (targetStage A sel) dlo) pLo pHi).filter _ = A
    rw [h3]
    exact List.filter_eq_self.mpr fun r hr => by
      rcases hchar r hr with ⟨_, _, _, hmw, hlp, _⟩
      rw [Bool.and_eq_true]
      exact ⟨(inClosedRange_iff r.mw mwLo mwHi).mpr hmw,
        (inClosedRange_iff r.logp lpLo lpHi).mpr hlp⟩
  · -- widening every range constraint is monotone
    intro df sel dlo mwLo mwHi lpLo lpHi mwLo' mwHi' lpLo' lpHi' pLo pHi pLo'
      pHi' h1 h2 h3 h4 h5 h6
    have hstage : List.Sublist
        (pic50Stage (drugLikeStage (targetStage df sel) dlo) pLo pHi)
        (pic50Stage (drugLikeStage (targetStage df sel) dlo) pLo' pHi') := by
      rw [pic50Stage, pic50Stage]
      by_cases hav : pic50Available (drugLikeStage (targetStage df sel) dlo) = true
      · rw [if_pos hav, if_pos hav]
        exact List.monotone_filter_right _ fun r hr =>
          inClosedRange_widen hr h5 h6
      · rw [if_neg hav, if_neg hav]
    have hfinal : List.Sublist
        (filtered_df df sel dlo mwLo mwHi lpLo lpHi pLo pHi)
        (filtered_df df sel dlo mwLo' mwHi' lpLo' lpHi' pLo' pHi') := by
      show List.Sublist (List.filter _ _) (List.filter _ _)
      refine List.Sublist.trans (hstage.filter _) ?_
      exact List.monotone_filter_right _ fun r hr => by
        rw [Bool.and_eq_true] at hr
        rw [Bool.and_eq_true]
        exact ⟨inClosedRange_widen hr.1 h1 h2, inClosedRange_widen hr.2 h3 h4⟩
    exact hfinal.length_le
  · -- adding a target is monotone when the pIC50 activation is unchanged
    intro df sel t dlo mwLo mwHi lpLo lpHi pLo pHi hav
    have hT : List.Sublist (targetStage df sel) (targetStage df (t :: sel)) :=
      List.monotone_filter_right _ fun r hr => by
        simp only [List.contains_cons, Bool.or_eq_true]
        exact Or.inr hr
    have hD : List.Sublist (drugLikeStage (targetStage df sel) dlo)
        (drugLikeStage (targetStage df (t :: sel)) dlo) := by
      cases dlo with
      | false => exact hT
      | true => exact hT.filter _
    have hP : List.Sublist
        (pic50Stage (drugLikeStage (targetStage df sel) dlo) pLo pHi)
        (pic50Stage (drugLikeStage (targetStage df (t :: sel)) dlo) pLo pHi) := by
      rw [pic50Stage, pic50Stage, hav]
      by_cases h : pic50Available (drugLikeStage (targetStage df sel) dlo) = true
      · rw [if_pos h, if_pos h]
        exact hD.filter _
      · rw [if_neg h, if_neg h]
        exact hD
    exact (hP.filter _).length_le

/-- Witness for the amended C7: the three parts instantiated at concrete
tables and constraints, with every ordering and activation hypothesis
discharged on concrete rationals. -/
theorem filtering_idempotent_and_monotone_amended_witness :
    (filtered_df (filtered_df [rowCox] ["COX1"] false 0 1000 0 10 (0 : ℚ) 10)
        ["COX1"] false 0 1000 0 10 0 10 =
      filtered_df [rowCox] ["COX1"] false 0 1000 0 10 0 10) ∧
    ((filtered_df [rowCox] ["COX1"] false 100 200 0 10 (5 : ℚ) 7).length ≤
      (filtered_df [rowCox] ["COX1"] false 50 300 0 11 (4 : ℚ) 8).length) ∧
    ((filtered_df [rowCox] ["COX1"] false 0 1000 0 10 (0 : ℚ) 10).length ≤
      (filtered_df [rowCox] ("EGFR" :: ["COX1"]) false 0 1000 0 10
        (0 : ℚ) 10).length) :=
  ⟨filtering_idempotent_and_monotone_amended.1 [rowCox] ["COX1"] false 0 1000
      0 10 0 10,
   filtering_idempotent_and_monotone_amended.2.1 [rowCox] ["COX1"] false 100
      200 0 10 50 300 0 11 5 7 4 8 (by norm_num) (by norm_num) (by norm_num)
      (by norm_num) (by norm_num) (by norm_num),
   filtering_idempotent_and_monotone_amended.2.2 [rowCox] ["COX1"] "EGFR"
      false 0 1000 0 10 0 10 (by decide)⟩

/-! Claim C8. -/

/-- Reduction of `npDiv` on two finite values. -/
lemma npDiv_val (x y : ℝ) :
    npDiv (NpFloat.val x) (NpFloat.val y) =
      if y = 0 then
        (if x = 0 then NpFloat.nan else if 0 < x then NpFloat.posInf
         else NpFloat.negInf)
      else NpFloat.val (x / y) := rfl

lemma drugLikePct_empty_eq_nan : drugLikePct ([] : List (Row ℝ)) = NpFloat.nan := by
  have h1 : ((drugLikeCount ([] : List (Row ℝ)) : ℕ) : ℝ) = 0 := by
    norm_num [drugLikeCount]
  have h2 : ((([] : List (Row ℝ)).length : ℕ) : ℝ) = 0 := by norm_num
  unfold drugLikePct
  rw [h1, h2, npDiv_val, if_pos rfl, if_pos rfl]
  rfl

/-- C8 counterexample: on the empty table the dashboard computes the
drug-like percentage as `0 / 0 * 100`, which under the float semantics of
the numpy scalars involved is NaN, not the 0% the claim states (the
rendered metric is `0 (nan%)`). -/
theorem empty_table_percent_is_nan :
    drugLikePct ([] : List (Row ℝ)) = NpFloat.nan ∧
      NpFloat.nan ≠ NpFloat.val 0 := by
  refine ⟨drugLikePct_empty_eq_nan, ?_⟩
  intro habs
  exact NpFloat.noConfusion habs

/-- C8 amended: on the empty table the overview raises no exception: the
row count is 0, the drug-like count is 0 with the percentage degrading to
NaN (0/0 under IEEE division, a RuntimeWarning at most), and the mean
pIC50 is undefined (NaN). -/
theorem empty_table_aggregation_amended :
    ([] : List (Row ℝ)).length = 0 ∧
    drugLikeCount ([] : List (Row ℝ)) = 0 ∧
    drugLikePct ([] : List (Row ℝ)) = NpFloat.nan ∧
    meanPIC50 ([] : List (Row ℝ)) = none :=
  ⟨rfl, rfl, drugLikePct_empty_eq_nan, rfl⟩

/-! Claim C9. -/

/-- A target-A row of mw 100. -/
def t9a1 : Row ℚ := { chembl_id := "1", target := "A", mw := some 100 }

/-- A target-A row of mw 200. -/
def t9a2 : Row ℚ := { chembl_id := "2", target := "A", mw := some 200 }

/-- A target-B row of mw 500. -/
def t9b : Row ℚ := { chembl_id := "3", target := "B", mw := some 500 }

/-- C9: `app.py` derives the mw slider bounds from the table already
narrowed by the target filter, not from the unfiltered transformed table:
with all targets selected the legal mw range is [100, 500], but narrowing
the target allow-list to {A} silently shrinks it to [100, 200], the defect
the claim (and the spec contract) rules out. -/
theorem slider_bounds_from_narrowed_table :
    mwSliderBounds [t9a1, t9a2, t9b] ["A", "B"] false = (some 100, some 500) ∧
    mwSliderBounds [t9a1, t9a2, t9b] ["A"] false = (some 100, some 200) :=
  ⟨by decide, by decide⟩

/-! Claim C10. -/

/-- C10: at the pIC50 filter stage, when the incoming table (already
narrowed by the earlier filters) has at least one defined pIC50 value, the
stage removes every row whose pIC50 is missing, whatever the chosen bounds
(including bounds left at the column min and max); when every pIC50 value
is missing, no constraint is applied and the table passes through
unchanged. -/
theorem pic50_stage_missing_semantics {π : Type} [LinearOrder π]
    (df : List (Row π)) (pLo pHi : π) :
    ((∃ r ∈ df, r.pIC50.isSome = true) →
      ∀ r ∈ pic50Stage df pLo pHi, r.pIC50.isSome = true) ∧
    ((∀ r ∈ df, r.pIC50 = none) → pic50Stage df pLo pHi = df) := by
  constructor
  · intro hex r hr
    have hav : pic50Available df = true := by
      rcases hex with ⟨r0, hr0, h0⟩
      exact List.any_eq_true.mpr ⟨r0, hr0, h0⟩
    rw [pic50Stage, if_pos hav] at hr
    rcases (inClosedRange_iff r.pIC50 pLo pHi).mp (List.mem_filter.mp hr).2 with
      ⟨v, hv, _⟩
    rw [hv]
    rfl
  · intro hall
    have hav : ¬ (pic50Available df = true) := by
      rw [pic50Available]
      intro habs
      rcases List.any_eq_true.mp habs with ⟨r0, hr0, h0⟩
      rw [hall r0 hr0] at h0
      exact Bool.noConfusion h0
    rw [pic50Stage, if_neg hav]

/-- A row with pIC50 = 5. -/
def rowP5 : Row ℚ := { chembl_id := "x", pIC50 := some 5 }

/-- A row with missing pIC50. -/
def rowPn : Row ℚ := { chembl_id := "y" }

/-- Witness for C10: on a concrete two-row table with one defined pIC50
every surviving row has a defined pIC50, and on a concrete all-missing
table the stage is the identity. -/
theorem pic50_stage_missing_semantics_witness :
    (∀ r ∈ pic50Stage [rowP5, rowPn] (0 : ℚ) 10, r.pIC50.isSome = true) ∧
      pic50Stage [rowPn] (0 : ℚ) 10 = [rowPn] :=
  ⟨(pic50_stage_missing_semantics [rowP5, rowPn] 0 10).1
      ⟨rowP5, List.mem_cons_self _ _, rfl⟩,
   (pic50_stage_missing_semantics [rowPn] 0 10).2
      (by
        intro r hr
        rw [List.mem_singleton.mp hr]
        rfl)⟩

end DrugDiscovery
